import Mathlib

/-!
Verification of the GramVoc spaced-repetition scheduling engine.

The repository's Python sources (src/config.py, src/database.py,
src/models.py, src/main.py) contain configuration, database plumbing and
SQLAlchemy entity declarations; the spaced-repetition engine itself
(Memory-State Model, Grading Policy, Due-Set Selector, Review Session
Coordinator) is specified but not implemented in the sources, so those
components are modelled here from the specification text.  Timestamps are
modelled as integers counting days from the epoch; ease factors are exact
rationals (the SM-2 constants 2.5, 1.3, 0.1, 0.08, 0.02 are all exactly
representable).
-/

/-- Modelled from the spec: `ReviewGrade`, the enumerated quality of recall
{FAIL, HARD, GOOD, EASY}; the Grading Policy is absent from src/. -/
inductive ReviewGrade where
  | fail
  | hard
  | good
  | easy
deriving DecidableEq, Repr

/-- Modelled from the spec: the numeric quality `q` in [0,5] for a grade:
FAIL→0, HARD→3, GOOD→4, EASY→5. -/
def quality : ReviewGrade → ℚ
  | ReviewGrade.fail => 0
  | ReviewGrade.hard => 3
  | ReviewGrade.good => 4
  | ReviewGrade.easy => 5

/-- Modelled from the spec: `MemoryState`, the immutable SM-2 review state
of a card (ease factor, interval in days, consecutive successful recalls,
due timestamp); only its storage columns appear in src/src/models.py. -/
structure MemoryState where
  easeFactor : ℚ
  interval : ℤ
  repetitionNumber : ℕ
  nextRepeat : ℤ
deriving DecidableEq, Repr

/-- Modelled from the spec: the validation predicate of the Memory-State
Model (ease ≥ 1.3, interval ≥ 1, nextRepeat ≥ epoch; `repetitionNumber ≥ 0`
holds by the type). -/
def validState (m : MemoryState) : Prop :=
  13/10 ≤ m.easeFactor ∧ 1 ≤ m.interval ∧ 0 ≤ m.nextRepeat

instance (m : MemoryState) : Decidable (validState m) := by
  unfold validState
  infer_instance

/-- Modelled from the spec: the default `MemoryState` produced at flashcard
creation (ease 2.5, interval 1, repetitionNumber 0, nextRepeat = now). -/
def defaultState (now : ℤ) : MemoryState :=
  { easeFactor := 5/2, interval := 1, repetitionNumber := 0, nextRepeat := now }

/-- Modelled from the spec: interval rounding uses round-half-up to the
nearest integer day. -/
def roundHalfUp (x : ℚ) : ℤ :=
  Rat.floor (x + 1/2)

/-- Modelled from the spec: the Grading Policy
`nextState(current, grade, now)`, absent from src/.  If `q < 3`:
repetitionNumber → 0, interval → 1, easeFactor unchanged.  If `q ≥ 3`:
repetitionNumber increments; interval is 1, 6, or
round(previous interval × easeFactor) according to the new repetition
number; the ease factor becomes
`ease + (0.1 - (5-q) × (0.08 + (5-q) × 0.02))` clamped to a minimum of 1.3
with no upper bound.  `nextRepeat = now + interval` days. -/
def nextState (current : MemoryState) (grade : ReviewGrade) (now : ℤ) : MemoryState :=
  let q := quality grade
  if q < 3 then
    { easeFactor := current.easeFactor
      interval := 1
      repetitionNumber := 0
      nextRepeat := now + 1 }
  else
    let rep := current.repetitionNumber + 1
    let newInterval : ℤ :=
      if rep = 1 then 1
      else if rep = 2 then 6
      else roundHalfUp ((current.interval : ℚ) * current.easeFactor)
    let newEase : ℚ :=
      max (13/10) (current.easeFactor + (1/10 - (5 - q) * (2/25 + (5 - q) * (1/50))))
    { easeFactor := newEase
      interval := newInterval
      repetitionNumber := rep
      nextRepeat := now + newInterval }

/-- The trajectory of states visited when a sequence of (grade, time)
review events is applied through the Grading Policy, the initial state
included. -/
def runStates (s : MemoryState) : List (ReviewGrade × ℤ) → List MemoryState
  | [] => [s]
  | (g, t) :: rest => s :: runStates (nextState s g t) rest

/-- Modelled from the spec: `FlashcardRef`, the projection of a flashcard
the engine operates on (identifier, owning user-word identifier, current
memory state). -/
structure FlashcardRef where
  id : ℕ
  userWordId : ℕ
  state : MemoryState
deriving DecidableEq, Repr

/-- Modelled from the spec: the `DueSet` ordering rule — ascending by
`nextRepeat`, ties broken by ascending identifier. -/
def dueOrder (a b : FlashcardRef) : Prop :=
  a.state.nextRepeat < b.state.nextRepeat ∨
    (a.state.nextRepeat = b.state.nextRepeat ∧ a.id ≤ b.id)

instance : DecidableRel dueOrder := fun a b => by
  unfold dueOrder
  infer_instance

instance : IsTotal FlashcardRef dueOrder :=
  ⟨fun a b => by unfold dueOrder; omega⟩

instance : IsTrans FlashcardRef dueOrder :=
  ⟨fun a b c hab hbc => by unfold dueOrder at *; omega⟩

/-- A card is due when `nextRepeat ≤ now`. -/
def isDue (now : ℤ) (c : FlashcardRef) : Bool :=
  decide (c.state.nextRepeat ≤ now)

/-- Modelled from the spec: the Due-Set Selector
`selectDue(cards, now, limit)`, absent from src/.  Filters to cards with
`nextRepeat ≤ now`, sorts ascending by due time then identifier, and
truncates to the first `limit` entries when a limit is given. -/
def selectDue (cards : List FlashcardRef) (now : ℤ) (limit : Option ℕ) : List FlashcardRef :=
  let sorted := List.insertionSort dueOrder (cards.filter (isDue now))
  match limit with
  | none => sorted
  | some n => sorted.take n

/-- Modelled from the spec: the phases of the Review Session Coordinator's
state machine. -/
inductive SessionPhase where
  | idle
  | inProgress
  | completed
deriving DecidableEq, Repr

/-- Modelled from the spec: a review session — the due-set snapshot still to
be graded (the remaining cursor) and the accumulator of (cardId, newState)
pairs already graded. -/
structure Session where
  userId : ℕ
  phase : SessionPhase
  remaining : List FlashcardRef
  graded : List (ℕ × MemoryState)
deriving DecidableEq, Repr

/-- Modelled from the spec: the error taxonomy of the engine. -/
inductive EngineError where
  | invalidGrade
  | noCardsRemaining
  | commitFailed
  | invariantViolation
deriving DecidableEq, Repr

/-- The persisted card store seen through the Repository Port: the current
`MemoryState` of each card identifier, when the card exists. -/
def Repo : Type :=
  ℕ → Option MemoryState

/-- Modelled from the spec: `startSession(userId, now, limit)` takes the
due-set snapshot and enters InProgress with an empty graded accumulator. -/
def startSession (userId : ℕ) (cards : List FlashcardRef) (now : ℤ) (limit : Option ℕ) :
    Session :=
  { userId := userId
    phase := SessionPhase.inProgress
    remaining := selectDue cards now limit
    graded := [] }

/-- Modelled from the spec: `gradeNext(grade)` consumes the next ungraded
card in order, computes its next state via the Grading Policy and appends
(cardId, newState) to the accumulator; fails with `NoCardsRemaining` on an
empty cursor. -/
def gradeNext (s : Session) (g : ReviewGrade) (now : ℤ) : Except EngineError Session :=
  match s.remaining with
  | [] => Except.error EngineError.noCardsRemaining
  | c :: rest =>
      Except.ok { s with
        remaining := rest
        graded := s.graded ++ [(c.id, nextState c.state g now)] }

/-- Modelled from the spec: `commit()` validates every accumulated state
(defensive `InvariantViolation` check), then writes all accumulated pairs
atomically through the Repository Port's `applyGradedStates`; when the port
reports a conflict or failure the whole commit fails with `CommitFailed`
and the persisted store is left as it was. -/
def commit (applyGradedStates : List (ℕ × MemoryState) → Repo → Option Repo)
    (s : Session) (repo : Repo) : Except EngineError Unit × Repo × Session :=
  if ∀ p ∈ s.graded, validState p.2 then
    match applyGradedStates s.graded repo with
    | some repoNew => (Except.ok (), repoNew, { s with phase := SessionPhase.completed })
    | none => (Except.error EngineError.commitFailed, repo, s)
  else
    (Except.error EngineError.invariantViolation, repo, s)

/-- A single-row write against the store. -/
def writeOne (repo : Repo) (p : ℕ × MemoryState) : Repo :=
  fun k => if k = p.1 then some p.2 else repo k

/-- A Repository Port stub that applies writes one at a time and reports
failure once the write budget is exhausted (the "fails after N writes"
simulation of the spec's P6). -/
def failAfter : ℕ → List (ℕ × MemoryState) → Repo → Option Repo
  | _, [], repo => some repo
  | 0, _ :: _, _ => none
  | b + 1, p :: rest, repo => failAfter b rest (writeOne repo p)

/-- Embedding of the `Flashcard` entity of src/src/models.py: identifier,
parent user-word, translation text, contextual frequency, and the four
SM-2 storage columns. -/
structure Flashcard where
  id : ℕ
  user_word_id : ℕ
  translation : String
  quantity : ℤ
  ease_factor : ℚ
  interval : ℤ
  repetition_number : ℕ
  next_repeat : ℤ
deriving DecidableEq, Repr

/-- Embedding of the column defaults declared on `Flashcard` in
src/src/models.py: `quantity` defaults to 0, `ease_factor` to 2.5,
`interval` to 1, `repetition_number` to 0, and `next_repeat` to the
server-side creation time `now()`. -/
def newFlashcard (cid uwid : ℕ) (tr : String) (now : ℤ) : Flashcard :=
  { id := cid
    user_word_id := uwid
    translation := tr
    quantity := 0
    ease_factor := 5/2
    interval := 1
    repetition_number := 0
    next_repeat := now }

/-- The memory-state projection of a stored flashcard's SM-2 columns. -/
def Flashcard.memoryState (f : Flashcard) : MemoryState :=
  { easeFactor := f.ease_factor
    interval := f.interval
    repetitionNumber := f.repetition_number
    nextRepeat := f.next_repeat }

/-- Embedding of `Settings` from src/src/config.py: the five postgres
fields and the echo flag, with the declared defaults `POSTGRES_PORT = 5432`
and `DB_ECHO = False`. -/
structure Settings where
  POSTGRES_USER : String
  POSTGRES_PASSWORD : String
  POSTGRES_DB : String
  POSTGRES_HOST : String
  POSTGRES_PORT : ℤ := 5432
  DB_ECHO : Bool := false
deriving DecidableEq, Repr

/-- Embedding of the computed field `Settings.DB_URL` from
src/src/config.py. -/
def DB_URL (s : Settings) : String :=
  "postgresql+asyncpg://" ++ s.POSTGRES_USER ++ ":" ++ s.POSTGRES_PASSWORD ++
    "@" ++ s.POSTGRES_HOST ++ "/" ++ s.POSTGRES_DB

/-- The observable configuration of a SQLAlchemy engine as far as
src/src/database.py sets it: the connection URL and the echo flag. -/
structure Engine where
  url : String
  echo : Bool
deriving DecidableEq, Repr

/-- Embedding of the engine construction in src/src/database.py:
`create_async_engine(settings.DB_URL, echo=False)`, as a function of the
settings it reads. -/
def engineFor (s : Settings) : Engine :=
  { url := DB_URL s, echo := false }

/-- A concrete card two days overdue, used to exercise the selector. -/
def cardEarly : FlashcardRef :=
  { id := 1, userWordId := 10, state := MemoryState.mk (5/2) 1 0 (-2) }

/-- A concrete card one day overdue. -/
def cardMid : FlashcardRef :=
  { id := 2, userWordId := 11, state := MemoryState.mk (5/2) 1 0 (-1) }

/-- A concrete card not yet due. -/
def cardFuture : FlashcardRef :=
  { id := 3, userWordId := 12, state := MemoryState.mk (5/2) 1 0 5 }

/-- A concrete graded state (first successful recall). -/
def stateW1 : MemoryState :=
  MemoryState.mk (5/2) 1 1 1

/-- A concrete graded state at the ease floor. -/
def stateW2 : MemoryState :=
  MemoryState.mk (13/10) 6 2 7

/-- A concrete in-progress session with two accumulated graded pairs. -/
def sessionW : Session :=
  { userId := 7
    phase := SessionPhase.inProgress
    remaining := []
    graded := [(1, stateW1), (2, stateW2)] }

/-- A concrete persisted store where every card holds the default state. -/
def repoW : Repo :=
  fun _ => some (defaultState 0)

/-- A concrete settings value. -/
def settingsW1 : Settings :=
  { POSTGRES_USER := "u"
    POSTGRES_PASSWORD := "pw"
    POSTGRES_DB := "db"
    POSTGRES_HOST := "h"
    POSTGRES_PORT := 5432
    DB_ECHO := false }

/-- The same settings value with a different port. -/
def settingsW2 : Settings :=
  { settingsW1 with POSTGRES_PORT := 9999 }

theorem nextState_ease_ge (s : MemoryState) (g : ReviewGrade) (t : ℤ)
    (h : 13/10 ≤ s.easeFactor) : 13/10 ≤ (nextState s g t).easeFactor := by
  cases g
  · simpa [nextState, quality] using h
  all_goals norm_num [nextState, quality]

theorem runStates_ease_ge (s : MemoryState) (gs : List (ReviewGrade × ℤ))
    (h : 13/10 ≤ s.easeFactor) : ∀ m ∈ runStates s gs, 13/10 ≤ m.easeFactor := by
  induction gs generalizing s with
  | nil =>
      intro m hm
      simp only [runStates, List.mem_singleton] at hm
      exact hm ▸ h
  | cons p rest ih =>
      intro m hm
      obtain ⟨g, t⟩ := p
      simp only [runStates, List.mem_cons] at hm
      rcases hm with rfl | hm
      · exact h
      · exact ih (nextState s g t) (nextState_ease_ge s g t h) m hm

/-- Claim C1: for every MemoryState with repetitionNumber greater than zero
and every timestamp, applying the Grading Policy with grade FAIL returns a
state with repetitionNumber 0, interval 1, and the input's ease factor. -/
theorem lapse_reset (s : MemoryState) (now : ℤ) (h : 0 < s.repetitionNumber) :
    (nextState s ReviewGrade.fail now).repetitionNumber = 0 ∧
    (nextState s ReviewGrade.fail now).interval = 1 ∧
    (nextState s ReviewGrade.fail now).easeFactor = s.easeFactor := by
  norm_num [nextState, quality]

theorem lapse_reset_witness :
    0 < (MemoryState.mk (5/2) 6 2 0).repetitionNumber ∧
    ((nextState (MemoryState.mk (5/2) 6 2 0) ReviewGrade.fail 0).repetitionNumber = 0 ∧
     (nextState (MemoryState.mk (5/2) 6 2 0) ReviewGrade.fail 0).interval = 1 ∧
     (nextState (MemoryState.mk (5/2) 6 2 0) ReviewGrade.fail 0).easeFactor =
       (MemoryState.mk (5/2) 6 2 0).easeFactor) :=
  ⟨by decide, lapse_reset (MemoryState.mk (5/2) 6 2 0) 0 (by decide)⟩

/-- Claim C2: for every initial MemoryState satisfying the validation
predicate and every finite sequence of timed grades applied through the
Grading Policy, the ease factor of every intermediate and final state is at
least 1.3. -/
theorem ease_floor (s : MemoryState) (gs : List (ReviewGrade × ℤ))
    (hvalid : validState s) : ∀ m ∈ runStates s gs, 13/10 ≤ m.easeFactor :=
  runStates_ease_ge s gs hvalid.1

theorem ease_floor_witness :
    13/10 ≤ (nextState (defaultState 0) ReviewGrade.good 0).easeFactor :=
  ease_floor (defaultState 0) [(ReviewGrade.good, 0)] (by norm_num [validState, defaultState])
    (nextState (defaultState 0) ReviewGrade.good 0) (by simp [runStates])

/-- Claim C3: for every MemoryState and every grade of quality at least 3,
the Grading Policy returns a state whose ease factor equals
max(1.3, ease + (0.1 - (5-q) × (0.08 + (5-q) × 0.02))), with no upper
bound applied. -/
theorem success_ease_formula (s : MemoryState) (g : ReviewGrade) (now : ℤ)
    (h : 3 ≤ quality g) :
    (nextState s g now).easeFactor =
      max (13/10)
        (s.easeFactor + (1/10 - (5 - quality g) * (2/25 + (5 - quality g) * (1/50)))) := by
  cases g
  · norm_num [quality] at h
  all_goals norm_num [nextState, quality]

theorem success_ease_formula_witness :
    3 ≤ quality ReviewGrade.good ∧
    (nextState (defaultState 0) ReviewGrade.good 0).easeFactor =
      max (13/10)
        ((defaultState 0).easeFactor +
          (1/10 - (5 - quality ReviewGrade.good) *
            (2/25 + (5 - quality ReviewGrade.good) * (1/50)))) :=
  ⟨by decide, success_ease_formula (defaultState 0) ReviewGrade.good 0 (by decide)⟩

/-- Claim C4 counterexample: grading GOOD on the default state does not
yield ease 2.6 — GOOD maps to quality 4, whose ease delta
0.1 - (5-4) × (0.08 + (5-4) × 0.02) is exactly 0, so the ease stays 2.5. -/
theorem good_scenario_counterexample :
    ¬ ((nextState (defaultState 0) ReviewGrade.good 0).repetitionNumber = 1 ∧
       (nextState (defaultState 0) ReviewGrade.good 0).interval = 1 ∧
       (nextState (defaultState 0) ReviewGrade.good 0).easeFactor = 26/10) := by
  norm_num [nextState, quality, defaultState, max_def]

/-- Claim C4 amended: grading GOOD at day 0 on the default state yields
repetition 1, interval 1 and ease 2.5 (unchanged), and grading GOOD again
at day 1 yields repetition 2, interval 6 and ease 2.5. -/
theorem good_scenario_amended :
    nextState (defaultState 0) ReviewGrade.good 0 = MemoryState.mk (5/2) 1 1 1 ∧
    nextState (nextState (defaultState 0) ReviewGrade.good 0) ReviewGrade.good 1 =
      MemoryState.mk (5/2) 6 2 7 := by
  norm_num [nextState, quality, defaultState, max_def]

theorem eq_of_perm_of_sorted_of_antisymmOn {α : Type} {r : α → α → Prop} :
    ∀ {l₁ l₂ : List α}, l₁.Perm l₂ → l₁.Sorted r → l₂.Sorted r →
      (∀ a ∈ l₁, ∀ b ∈ l₁, r a b → r b a → a = b) → l₁ = l₂ := by
  intro l₁
  induction l₁ with
  | nil =>
      intro l₂ hp _ _ _
      exact hp.nil_eq
  | cons a t₁ ih =>
      intro l₂ hp hs₁ hs₂ hanti
      cases l₂ with
      | nil => exact absurd hp.eq_nil (List.cons_ne_nil a t₁)
      | cons b t₂ =>
          have hab : a = b := by
            by_contra hne
            have ha2 : a ∈ b :: t₂ := hp.subset (List.mem_cons_self a t₁)
            have hb1 : b ∈ a :: t₁ := hp.symm.subset (List.mem_cons_self b t₂)
            have hat2 : a ∈ t₂ := by
              rcases List.mem_cons.mp ha2 with h | h
              · exact absurd h hne
              · exact h
            have hbt1 : b ∈ t₁ := by
              rcases List.mem_cons.mp hb1 with h | h
              · exact absurd h.symm hne
              · exact h
            have hrab : r a b := (List.sorted_cons.mp hs₁).1 b hbt1
            have hrba : r b a := (List.sorted_cons.mp hs₂).1 a hat2
            exact hne (hanti a (List.mem_cons_self a t₁) b hb1 hrab hrba)
          subst hab
          have hterm : t₁ = t₂ :=
            ih hp.cons_inv (List.sorted_cons.mp hs₁).2 (List.sorted_cons.mp hs₂).2
              (fun x hx y hy => hanti x (List.mem_cons_of_mem a hx) y (List.mem_cons_of_mem a hy))
          rw [hterm]

/-- Claim C5: for every collection of FlashcardRef, every timestamp and
every optional limit, selectDue returns exactly the cards with
nextRepeat ≤ now, in the due-set order (ascending nextRepeat, ties broken
by ascending identifier), truncated to the first limit entries when a limit
is given, and returns an empty due set (not an error) when no card is
due. -/
theorem selectDue_spec (cards : List FlashcardRef) (now : ℤ) :
    (selectDue cards now none).Perm (cards.filter (isDue now)) ∧
    (∀ c, c ∈ selectDue cards now none ↔ c ∈ cards ∧ c.state.nextRepeat ≤ now) ∧
    (∀ limit, List.Sorted dueOrder (selectDue cards now limit)) ∧
    (∀ n, selectDue cards now (some n) = (selectDue cards now none).take n) ∧
    ((∀ c ∈ cards, ¬ c.state.nextRepeat ≤ now) → selectDue cards now none = []) := by
  refine ⟨List.perm_insertionSort dueOrder _, ?_, ?_, ?_, ?_⟩
  · intro c
    rw [show selectDue cards now none = List.insertionSort dueOrder (cards.filter (isDue now))
          from rfl,
      (List.perm_insertionSort dueOrder _).mem_iff, List.mem_filter]
    simp [isDue]
  · intro limit
    cases limit with
    | none => exact List.sorted_insertionSort dueOrder _
    | some n =>
        exact List.Pairwise.sublist (List.take_sublist n _) (List.sorted_insertionSort dueOrder _)
  · intro n
    rfl
  · intro hnone
    have hfil : cards.filter (isDue now) = [] := by
      rw [List.filter_eq_nil_iff]
      intro c hc
      simpa [isDue] using hnone c hc
    simp [selectDue, hfil]

theorem selectDue_spec_witness :
    selectDue [cardFuture] 0 none = [] :=
  (selectDue_spec [cardFuture] 0).2.2.2.2 (by decide)

/-- Claim C6: for a fixed pair (collection, now) and fixed optional limit,
selectDue is a pure function of the collection's contents — two collections
holding the same cards (with distinct identifiers) in any iteration order
give identical ordered results. -/
theorem selectDue_deterministic (c₁ c₂ : List FlashcardRef) (now : ℤ) (limit : Option ℕ)
    (hperm : c₁.Perm c₂) (hids : (c₁.map FlashcardRef.id).Nodup) :
    selectDue c₁ now limit = selectDue c₂ now limit := by
  have hfilter : (c₁.filter (isDue now)).Perm (c₂.filter (isDue now)) := hperm.filter _
  have hsorteq :
      List.insertionSort dueOrder (c₁.filter (isDue now)) =
        List.insertionSort dueOrder (c₂.filter (isDue now)) := by
    apply eq_of_perm_of_sorted_of_antisymmOn
      ((List.perm_insertionSort dueOrder _).trans
        (hfilter.trans (List.perm_insertionSort dueOrder _).symm))
      (List.sorted_insertionSort dueOrder _)
      (List.sorted_insertionSort dueOrder _)
    intro x hx y hy hxy hyx
    have hx1 : x ∈ c₁ :=
      List.mem_of_mem_filter ((List.perm_insertionSort dueOrder _).subset hx)
    have hy1 : y ∈ c₁ :=
      List.mem_of_mem_filter ((List.perm_insertionSort dueOrder _).subset hy)
    have hid : x.id = y.id := by
      unfold dueOrder at hxy hyx
      omega
    exact List.inj_on_of_nodup_map hids hx1 hy1 hid
  cases limit with
  | none => exact hsorteq
  | some n => simp only [selectDue, hsorteq]

theorem selectDue_deterministic_witness :
    selectDue [cardEarly, cardMid] 0 none = selectDue [cardMid, cardEarly] 0 none :=
  selectDue_deterministic [cardEarly, cardMid] [cardMid, cardEarly] 0 none
    (List.Perm.swap cardMid cardEarly []) (by decide)

/-- Claim C7: for every in-progress session whose graded states pass
validation, if the Repository Port's applyGradedStates reports a conflict
or failure during commit, then the persisted store is unchanged — none of
the accumulated (cardId, newState) pairs is applied — and the coordinator
reports CommitFailed. -/
theorem commit_atomic (applyGradedStates : List (ℕ × MemoryState) → Repo → Option Repo)
    (s : Session) (repo : Repo)
    (hphase : s.phase = SessionPhase.inProgress)
    (hvalid : ∀ p ∈ s.graded, validState p.2)
    (hfail : applyGradedStates s.graded repo = none) :
    (commit applyGradedStates s repo).1 = Except.error EngineError.commitFailed ∧
    (commit applyGradedStates s repo).2.1 = repo ∧
    ∀ cid st, (cid, st) ∈ s.graded →
      (commit applyGradedStates s repo).2.1 cid = repo cid := by
  unfold commit
  rw [if_pos hvalid, hfail]
  exact ⟨rfl, rfl, fun _ _ _ => rfl⟩

theorem commit_atomic_witness :
    (commit (failAfter 1) sessionW repoW).1 = Except.error EngineError.commitFailed ∧
    (commit (failAfter 1) sessionW repoW).2.1 = repoW ∧
    ∀ cid st, (cid, st) ∈ sessionW.graded →
      (commit (failAfter 1) sessionW repoW).2.1 cid = repoW cid :=
  commit_atomic (failAfter 1) sessionW repoW rfl
    (by norm_num [sessionW, stateW1, stateW2, validState])
    rfl

/-- Claim C8: a newly created flashcard's memory-state columns default to
ease_factor 2.5, interval 1, repetition_number 0 and next_repeat equal to
the creation time, matching the spec's default MemoryState. -/
theorem flashcard_defaults (cid uwid : ℕ) (tr : String) (now : ℤ) :
    (newFlashcard cid uwid tr now).memoryState = defaultState now ∧
    (newFlashcard cid uwid tr now).ease_factor = 5/2 ∧
    (newFlashcard cid uwid tr now).interval = 1 ∧
    (newFlashcard cid uwid tr now).repetition_number = 0 ∧
    (newFlashcard cid uwid tr now).next_repeat = now :=
  ⟨rfl, rfl, rfl, rfl, rfl⟩

/-- Claim C9: DB_URL is the asyncpg URL built from user, password, host and
database name, and never contains the port — two Settings differing only in
POSTGRES_PORT produce the same DB_URL. -/
theorem db_url_ignores_port (s₁ s₂ : Settings)
    (hu : s₁.POSTGRES_USER = s₂.POSTGRES_USER)
    (hpw : s₁.POSTGRES_PASSWORD = s₂.POSTGRES_PASSWORD)
    (hdb : s₁.POSTGRES_DB = s₂.POSTGRES_DB)
    (hh : s₁.POSTGRES_HOST = s₂.POSTGRES_HOST)
    (he : s₁.DB_ECHO = s₂.DB_ECHO) :
    DB_URL s₁ = DB_URL s₂ ∧
    DB_URL s₁ =
      "postgresql+asyncpg://" ++ s₁.POSTGRES_USER ++ ":" ++ s₁.POSTGRES_PASSWORD ++
        "@" ++ s₁.POSTGRES_HOST ++ "/" ++ s₁.POSTGRES_DB := by
  unfold DB_URL
  rw [hu, hpw, hdb, hh]
  exact ⟨rfl, rfl⟩

theorem db_url_ignores_port_witness :
    DB_URL settingsW1 = DB_URL settingsW2 ∧
    DB_URL settingsW1 =
      "postgresql+asyncpg://" ++ settingsW1.POSTGRES_USER ++ ":" ++
        settingsW1.POSTGRES_PASSWORD ++ "@" ++ settingsW1.POSTGRES_HOST ++ "/" ++
        settingsW1.POSTGRES_DB :=
  db_url_ignores_port settingsW1 settingsW2 rfl rfl rfl rfl rfl

/-- Claim C10: the engine is always created with echo set to false
regardless of the DB_ECHO setting — two Settings differing only in DB_ECHO
yield engines with the same echo value. -/
theorem engine_echo_fixed (s : Settings) (b : Bool) :
    (engineFor { s with DB_ECHO := b }).echo = (engineFor s).echo ∧
    (engineFor s).echo = false :=
  ⟨rfl, rfl⟩
